import Mathlib

/-!
Verification development for the karaoke repository.

A shallow embedding of the scoring engine (scorer.py) and of the lyric
parsing / synchronization logic (karaoke_player.py).  Python floats are
modelled as rationals; the instantaneous microphone level, which the code
obtains as a Euclidean norm, is modelled as a real number.  Fallible
Python operations (dictionary access on a possibly missing key, opening a
stream, closing a stream, loading a JSON file) are modelled in the Except
monad, with Python try/except blocks modelled as tryCatch.
-/

namespace Karaoke

/-! ### Scorer: scoring state (src/scorer.py) -/

/-- The scoring fields of the Scorer object: total_samples, hit_samples and
the sliding window recent_hits (entries 0 or 1, oldest first). -/
structure ScoreState where
  total_samples : ℕ
  hit_samples : ℕ
  recent_hits : List ℕ
  deriving Repr, DecidableEq

/-- Scorer.reset: all three scoring fields cleared. -/
def resetState : ScoreState := ⟨0, 0, []⟩

/-- self.accuracy_window_size = 43. -/
def accuracy_window_size : ℕ := 43

/-- The difficulty threshold chosen in _process_audio: 7.0 by default,
1.5 for "Fácil", 15.0 for "Difícil". -/
def thresholdOf (difficulty : String) : ℚ :=
  if difficulty = "Fácil" then 1.5
  else if difficulty = "Difícil" then 15.0
  else 7.0

/-- combined_vol = max(current_volume_mic1, current_volume_mic2 * 0.8). -/
def combined_vol (v1 v2 : ℚ) : ℚ := max v1 (v2 * 0.8)

/-- One scoring step of _process_audio (the block guarded by
is_singing_segment): increments total_samples, counts a hit when
combined_vol exceeds the threshold, appends the outcome to recent_hits and
pops the oldest entry when the window size is exceeded. -/
def observe (s : ScoreState) (current_volume_mic1 current_volume_mic2 : ℚ)
    (difficulty : String) (is_singing_segment : Bool) : ScoreState :=
  if is_singing_segment then
    let hit : ℕ := if combined_vol current_volume_mic1 current_volume_mic2 > thresholdOf difficulty then 1 else 0
    let recent := s.recent_hits ++ [hit]
    { total_samples := s.total_samples + 1
      hit_samples := s.hit_samples + hit
      recent_hits := if recent.length > accuracy_window_size then recent.drop 1 else recent }
  else s

/-- A sequence of processing cycles, each feeding observe with that
cycle's mic levels, difficulty and singing flag. -/
def runObserve (s : ScoreState) (inputs : List (ℚ × ℚ × String × Bool)) : ScoreState :=
  inputs.foldl (fun st i => observe st i.1 i.2.1 i.2.2.1 i.2.2.2) s

/-- Scorer.get_score: 0 when total_samples == 0, otherwise
int(min(100, (hit_samples / total_samples) * 100)); the Python int()
truncation on this nonnegative value is the floor. -/
def get_score (s : ScoreState) : ℤ :=
  if s.total_samples = 0 then 0
  else ⌊min 100 ((s.hit_samples : ℚ) / (s.total_samples : ℚ) * 100)⌋

/-- get_score as the specification words it (for comparison with the
code): round(hit_samples / total_samples * 100) clamped to the interval
from 0 to 100, or 0 when total_samples == 0. -/
def get_score_claimed (s : ScoreState) : ℤ :=
  if s.total_samples = 0 then 0
  else max 0 (min 100 (round ((s.hit_samples : ℚ) / (s.total_samples : ℚ) * 100)))

/-- Scorer.get_current_accuracy: mean of the sliding window, 0 when empty. -/
def get_current_accuracy (s : ScoreState) : ℚ :=
  if s.recent_hits = [] then 0
  else ((s.recent_hits.sum : ℚ)) / (s.recent_hits.length : ℚ)

/-! ### Scorer: streams (src/scorer.py) -/

/-- An open PyAudio stream handle.  read_result models what a read of the
stream yields (none models a read that raises, leaving the zero buffer in
place); failsOnClose models stop_stream/close raising. -/
structure AudioStream where
  read_result : Option (List ℚ)
  failsOnClose : Bool
  deriving Repr, DecidableEq

/-- The three stream handles of the Scorer object. -/
structure StreamSet where
  stream_mic1 : Option AudioStream
  stream_mic2 : Option AudioStream
  stream_output : Option AudioStream
  deriving Repr, DecidableEq

/-- Closing a stream (stop_stream + close), which may raise. -/
def closeStream (st : AudioStream) : Except Unit Unit :=
  if st.failsOnClose then .error () else .ok ()

/-- One block of stop_streams: if the handle is set, try to close it,
swallowing any exception, then assign None to the handle. -/
def tryCloseHandle (h : Option AudioStream) : Except Unit (Option AudioStream) :=
  match h with
  | none => pure none
  | some st => do
      tryCatch (closeStream st) (fun _ => pure ())
      pure none

/-- Scorer.stop_streams: closes mic1, mic2 and the monitor output in
order, each independently guarded by try/except, nulling each handle. -/
def stop_streams (s : StreamSet) : Except Unit StreamSet :=
  match tryCloseHandle s.stream_mic1 with
  | .error e => .error e
  | .ok m1 =>
    match tryCloseHandle s.stream_mic2 with
    | .error e => .error e
    | .ok m2 =>
      match tryCloseHandle s.stream_output with
      | .error e => .error e
      | .ok mo => .ok ⟨m1, m2, mo⟩

/-- The paused branch at the top of the _process_audio loop:
if self.paused, streams are stopped only when stream_mic1 or
stream_output is set, then the cycle is skipped. -/
def pausedCycleStreams (s : StreamSet) : Except Unit StreamSet :=
  if s.stream_mic1.isSome || s.stream_output.isSome then stop_streams s
  else pure s

/-- The device-open and monitor-attempt outcomes that the host audio
system decides when start_streams runs: whether opening mic1 and mic2
succeeds, and which of the monitor format attempts succeed. -/
structure OpenOutcomes where
  mic1_ok : Bool
  mic2_ok : Bool
  monitor_attempts : List Bool
  deriving Repr, DecidableEq

/-- p.open for an input stream: yields a fresh handle or raises. -/
def open_input (ok : Bool) : Except Unit AudioStream :=
  if ok then .ok ⟨none, false⟩ else .error ()

/-- Scorer.start_streams (stream-handle effects): mic1 is opened when
input_device_index_1 is not None; mic2 is opened only when
input_device_index_2 is not None and differs from input_device_index_1;
when monitoring is enabled the output handle is first reset to None and
the format attempts are tried in order, and if all fail monitoring is
force-disabled.  The single surrounding try/except keeps the handles
assigned before a raising open.  Returns the stream set and the possibly
force-disabled monitoring flag. -/
def start_streams (input_device_index_1 input_device_index_2 : Option ℕ)
    (monitoring_enabled : Bool) (oc : OpenOutcomes) (s : StreamSet) :
    StreamSet × Bool :=
  let mic1Step : Except Unit StreamSet :=
    if input_device_index_1.isSome then
      (fun st => { s with stream_mic1 := some st }) <$> open_input oc.mic1_ok
    else .ok s
  match mic1Step with
  | .error _ => (s, monitoring_enabled)
  | .ok s1 =>
    let mic2Step : Except Unit StreamSet :=
      if input_device_index_2.isSome && input_device_index_2 != input_device_index_1 then
        (fun st => { s1 with stream_mic2 := some st }) <$> open_input oc.mic2_ok
      else .ok s1
    match mic2Step with
    | .error _ => (s1, monitoring_enabled)
    | .ok s2 =>
      if monitoring_enabled then
        let s3 := { s2 with stream_output := none }
        if oc.monitor_attempts.any id then
          ({ s3 with stream_output := some ⟨none, false⟩ }, true)
        else (s3, false)
      else (s2, monitoring_enabled)

/-- np.zeros(chunk): the zero-filled buffer a mic contributes when its
stream is absent or its read fails. -/
def np_zeros (chunk : ℕ) : List ℚ := List.replicate chunk 0

/-- The mic2 read of a processing cycle: data2 starts as np.zeros(chunk)
and is replaced by the read samples only when the mic2 stream exists and
the read does not raise. -/
def readMic2 (s : StreamSet) (chunk : ℕ) : List ℚ :=
  match s.stream_mic2 with
  | none => np_zeros chunk
  | some st => st.read_result.getD (np_zeros chunk)

/-- np.linalg.norm: the Euclidean norm of a buffer. -/
noncomputable def np_linalg_norm (xs : List ℚ) : ℝ :=
  Real.sqrt ((xs.map (fun x : ℚ => ((x : ℝ)) ^ 2)).sum)

/-- current_volume_mic2 (and mic1) of a cycle: the norm of the
gain-multiplied buffer divided by chunk, or 0 for an empty buffer. -/
noncomputable def current_volume (data : List ℚ) (volume : ℚ) (chunk : ℕ) : ℝ :=
  let float_d := data.map (fun x => x * volume)
  if 0 < float_d.length then np_linalg_norm float_d / (chunk : ℝ) else 0

/-! ### KaraokePlayer: lyric parsing (src/karaoke_player.py) -/

/-- A parsed word entry after parse_lrc: start_ms and end_ms in
milliseconds plus the display text carried through from the file. -/
structure PWord where
  start_ms : ℚ
  end_ms : ℚ
  display : Option String
  deriving Repr, DecidableEq, Inhabited

/-- A parsed lyric line: time (start in milliseconds), end_time (present
for word-level JSON lines, absent for LRC lines), the word list and the
raw text (present only for LRC lines). -/
structure PLine where
  time : ℚ
  end_time : Option ℚ
  words : List PWord
  text : Option String
  deriving Repr, DecidableEq, Inhabited

/-- A word object of the word-level JSON file; a missing key is none. -/
structure JWord where
  start : Option ℚ
  end_ : Option ℚ
  display : Option String
  deriving Repr, DecidableEq

/-- A line object of the word-level JSON file; a missing start or end key
is none, a missing words key is the empty list (the code reads it with a
default). -/
structure JLine where
  start : Option ℚ
  end_ : Option ℚ
  words : List JWord
  deriving Repr, DecidableEq

/-- The JSON document; lines is none when the top-level object has no
lines key (the code reads it with default []). -/
structure JsonDoc where
  lines : Option (List JLine)
  deriving Repr, DecidableEq

/-- Python subscript access d[key]: raises KeyError when the key is
missing. -/
def getKey {α : Type} (v : Option α) : Except Unit α :=
  match v with
  | some x => .ok x
  | none => .error ()

/-- The word loop of the JSON branch of parse_lrc:
w['start_ms'] = w['start'] * 1000; w['end_ms'] = w['end'] * 1000. -/
def parseJsonWord (w : JWord) : Except Unit PWord := do
  let ws ← getKey w.start
  let we ← getKey w.end_
  pure ⟨ws * 1000, we * 1000, w.display⟩

/-- The line loop of the JSON branch of parse_lrc:
l['time'] = l['start'] * 1000; l['end_time'] = l['end'] * 1000, then the
word loop over l.get('words', []). -/
def parseJsonLine (l : JLine) : Except Unit PLine := do
  let s ← getKey l.start
  let e ← getKey l.end_
  let ws ← l.words.mapM parseJsonWord
  pure ⟨s * 1000, some (e * 1000), ws, none⟩

instance {ε α : Type} [DecidableEq ε] [DecidableEq α] : DecidableEq (Except ε α) := fun x y =>
  match x, y with
  | .ok a, .ok b =>
      if h : a = b then .isTrue (congrArg Except.ok h)
      else .isFalse (fun hh => h (Except.ok.inj hh))
  | .error a, .error b =>
      if h : a = b then .isTrue (congrArg Except.error h)
      else .isFalse (fun hh => h (Except.error.inj hh))
  | .ok _, .error _ => .isFalse (fun hh => Except.noConfusion hh)
  | .error _, .ok _ => .isFalse (fun hh => Except.noConfusion hh)

/-- The input handed to parse_lrc: a .json path (whose open + json.load
either yields a document or raises) or an other path treated as LRC,
with its existence bit and the outcome of reading and UTF-8-decoding its
text: per decoded line the result of the regex search (minutes, seconds,
text) — none for a non-matching line — or an error when the read or the
decoding raises (for example UnicodeDecodeError on non-UTF-8 bytes). -/
inductive LyricSource where
  | jsonFile (loaded : Except Unit JsonDoc)
  | lrcFile (exists_ : Bool) (decoded : Except Unit (List (Option (ℕ × ℚ × String))))
  deriving DecidableEq

/-- KaraokePlayer.parse_lrc.  The JSON branch wraps everything in
try/except and returns the empty list on any exception; the LRC branch
returns the empty list for a missing path, but its file read and
iteration carry no try/except, so a read or decode error propagates out
of parse_lrc; otherwise it keeps one entry per matching line with
time_ms = (minutes * 60 + seconds) * 1000.  The Except layer records
which exceptions escape parse_lrc itself. -/
def parse_lrc (src : LyricSource) : Except Unit (List PLine) :=
  match src with
  | .jsonFile loaded =>
      match (do
        let d ← loaded
        (d.lines.getD []).mapM parseJsonLine : Except Unit (List PLine)) with
      | .ok ls => .ok ls
      | .error _ => .ok []
  | .lrcFile exists_ decoded =>
      if !exists_ then .ok []
      else do
        let ms ← decoded
        .ok (ms.filterMap (fun m =>
          m.map (fun t => ⟨((t.1 : ℚ) * 60 + t.2.1) * 1000, none, [], some t.2.2⟩)))

/-! ### KaraokePlayer: playback clock and seek (src/karaoke_player.py) -/

/-- KaraokePlayer.get_current_time: pygame reports the position pos (or
-1 when unknown); the method returns 0 for -1 and otherwise
pos + current_offset_ms. -/
def get_current_time (pos current_offset_ms : ℤ) : ℤ :=
  if pos = -1 then 0 else pos + current_offset_ms

/-- line.get('end_time', line['time'] + 5000): the effective end of a
line, with the 5-second fallback for lines lacking end_time. -/
def line_end_time (l : PLine) : ℚ := l.end_time.getD (l.time + 5000)

/-- The page resynchronization loop of seek_song, operating on the
remaining lyrics suffix: while page_index + 1 is in range and the target
exceeds the next line's effective end, advance page_index by two and
drop two lines from the suffix. -/
def seekScan : List PLine → ℚ → ℕ → ℕ
  | _ :: l :: rest, target_ms, page_index =>
      if target_ms > line_end_time l then seekScan rest target_ms (page_index + 2)
      else page_index
  | _, _, page_index => page_index

/-- seek_song page recomputation: page_index reset to 0 and then the
scan loop over the whole timeline. -/
def seek_page_index (lyrics : List PLine) (target_ms : ℚ) : ℕ :=
  seekScan lyrics target_ms 0

/-! ### Shared helper lemmas -/

lemma thresholdOf_facil : thresholdOf "Fácil" = 1.5 := rfl

lemma thresholdOf_normal : thresholdOf "Normal" = 7 := by
  norm_num [thresholdOf, show ("Normal" : String) ≠ "Fácil" by decide,
    show ("Normal" : String) ≠ "Difícil" by decide]

lemma thresholdOf_dificil : thresholdOf "Difícil" = 15 := by
  norm_num [thresholdOf, show ("Difícil" : String) ≠ "Fácil" by decide]

lemma tryCloseHandle_ok (h : Option AudioStream) : tryCloseHandle h = .ok none := by
  match h with
  | none => rfl
  | some ⟨r, true⟩ => rfl
  | some ⟨r, false⟩ => rfl

/-- C2: on every processing cycle with singing_expected true the cycle increments
total_samples, and it counts as a hit (hit_samples incremented, outcome 1 recorded,
else 0) if and only if max(mic1_level, 0.8 * mic2_level) exceeds the difficulty
threshold, with thresholds Easy (Fácil) = 1.5, Normal = 7.0, Hard (Difícil) = 15.0;
in particular a combined level of 2.0 is a hit at Easy and a miss at Hard. -/
theorem observe_hit_iff :
    (∀ (s : ScoreState) (v1 v2 : ℚ) (d : String),
        (observe s v1 v2 d true).total_samples = s.total_samples + 1
        ∧ (observe s v1 v2 d true).hit_samples
            = s.hit_samples + (if combined_vol v1 v2 > thresholdOf d then 1 else 0)
        ∧ (observe s v1 v2 d true).recent_hits.getLast?
            = some (if combined_vol v1 v2 > thresholdOf d then 1 else 0))
    ∧ (∀ v1 v2 : ℚ, combined_vol v1 v2 = max v1 (0.8 * v2))
    ∧ thresholdOf "Fácil" = 1.5 ∧ thresholdOf "Normal" = 7 ∧ thresholdOf "Difícil" = 15
    ∧ (observe resetState 2 0 "Fácil" true).hit_samples = 1
    ∧ (observe resetState 2 0 "Difícil" true).hit_samples = 0 := by
  refine ⟨fun s v1 v2 d => ⟨by simp [observe], by simp [observe], ?_⟩,
    fun v1 v2 => by simp [combined_vol, mul_comm],
    thresholdOf_facil, thresholdOf_normal, thresholdOf_dificil,
    by norm_num [observe, resetState, combined_vol, thresholdOf, max_def],
    by norm_num [observe, resetState, combined_vol, thresholdOf, max_def,
      show ("Difícil" : String) ≠ "Fácil" by decide]⟩
  have key : ∀ (o : ℕ) (L : List ℕ),
      (if (L ++ [o]).length > accuracy_window_size then (L ++ [o]).drop 1 else L ++ [o]).getLast?
        = some o := by
    intro o L
    split
    · rename_i hlong
      rw [List.drop_append_of_le_length (by simp [accuracy_window_size] at hlong ⊢; omega)]
      exact List.getLast?_concat _
    · exact List.getLast?_concat _
  simp only [observe, if_true]
  exact key _ _

/-- C1 (amended): get_score returns 0 when total_samples is 0 and otherwise
min 100 (floor of hit_samples / total_samples * 100) — a truncation, not the
rounding the claim states — and the result always lies between 0 and 100. -/
theorem get_score_trunc_bounds (s : ScoreState) :
    0 ≤ get_score s ∧ get_score s ≤ 100
    ∧ get_score s = (if s.total_samples = 0 then 0
        else min 100 ⌊(s.hit_samples : ℚ) / (s.total_samples : ℚ) * 100⌋) := by
  by_cases h : s.total_samples = 0
  · simp [get_score, h]
  · have hacc : (0 : ℚ) ≤ (s.hit_samples : ℚ) / (s.total_samples : ℚ) * 100 := by positivity
    have h100 : (⌊(100 : ℚ)⌋ : ℤ) = 100 := by norm_num
    refine ⟨?_, ?_, ?_⟩
    · simp only [get_score, if_neg h]
      exact Int.floor_nonneg.mpr (le_min (by norm_num) hacc)
    · simp only [get_score, if_neg h]
      calc ⌊min 100 ((s.hit_samples : ℚ) / (s.total_samples : ℚ) * 100)⌋
          ≤ ⌊(100 : ℚ)⌋ := Int.floor_le_floor (min_le_left _ _)
        _ = 100 := h100
    · simp only [get_score, if_neg h]
      rcases min_cases (100 : ℚ) ((s.hit_samples : ℚ) / (s.total_samples : ℚ) * 100) with
        ⟨hm, hle⟩ | ⟨hm, hlt⟩
      · rw [hm, h100, min_eq_left]
        rw [← h100]
        exact Int.floor_le_floor hle
      · rw [hm, min_eq_right]
        rw [← h100]
        exact Int.floor_le_floor (le_of_lt hlt)

/-- C1 (counterexample): after a sequence of three scored observe cycles with two
hits, get_score returns 66, the truncated ratio, while the claimed formula
round(hit_samples / total_samples * 100) clamped to the interval gives 67. -/
theorem get_score_round_cex :
    get_score (runObserve resetState
        [(2, 0, "Fácil", true), (2, 0, "Fácil", true), (0, 0, "Fácil", true)]) = 66
    ∧ get_score_claimed (runObserve resetState
        [(2, 0, "Fácil", true), (2, 0, "Fácil", true), (0, 0, "Fácil", true)]) = 67 := by
  have hstate : runObserve resetState
      [(2, 0, "Fácil", true), (2, 0, "Fácil", true), (0, 0, "Fácil", true)] = ⟨3, 2, [1, 1, 0]⟩ := by
    norm_num [runObserve, observe, resetState, combined_vol, thresholdOf, max_def,
      accuracy_window_size]
  rw [hstate]
  constructor
  · norm_num [get_score, min_def]
  · norm_num [get_score_claimed, min_def, max_def, round_eq]

/-- Window length after a single observe step. -/
lemma observe_recent_length (s : ScoreState) (v1 v2 : ℚ) (d : String) (b : Bool)
    (hs : s.recent_hits.length ≤ accuracy_window_size) :
    (observe s v1 v2 d b).recent_hits.length
      = if b then min (s.recent_hits.length + 1) accuracy_window_size
        else s.recent_hits.length := by
  cases b
  · rfl
  · simp only [observe, if_true]
    generalize (if combined_vol v1 v2 > thresholdOf d then (1 : ℕ) else 0) = o
    split
    · rename_i hlong
      simp only [List.length_drop, List.length_append, List.length_cons, List.length_nil] at *
      omega
    · rename_i hshort
      simp only [List.length_append, List.length_cons, List.length_nil] at *
      omega

/-- Window length along a run of observe steps. -/
lemma runObserve_recent_length (inputs : List (ℚ × ℚ × String × Bool)) (s : ScoreState)
    (hs : s.recent_hits.length ≤ accuracy_window_size) :
    (runObserve s inputs).recent_hits.length
      = min (s.recent_hits.length + inputs.countP (fun i => i.2.2.2)) accuracy_window_size := by
  induction inputs generalizing s with
  | nil =>
    simp only [runObserve, List.foldl_nil, List.countP_nil, Nat.add_zero]
    omega
  | cons i t ih =>
    have h1 := observe_recent_length s i.1 i.2.1 i.2.2.1 i.2.2.2 hs
    have h2 : (observe s i.1 i.2.1 i.2.2.1 i.2.2.2).recent_hits.length ≤ accuracy_window_size := by
      rw [h1]; cases i.2.2.2 <;> simp <;> omega
    have h3 := ih (observe s i.1 i.2.1 i.2.2.1 i.2.2.2) h2
    simp only [runObserve, List.foldl_cons] at h3 ⊢
    rw [h3, h1, List.countP_cons]
    cases hb : i.2.2.2 <;> simp [hb] <;> omega

/-- C3: the recent-outcomes window always has length at most W = 43; each scored
cycle appends one outcome and evicts the oldest entry (strict FIFO) when the length
exceeds W, so after more than W observations with singing_expected true from a reset
state its length is exactly W (the length from reset is min(count, 43)). -/
theorem recent_hits_window :
    (∀ inputs : List (ℚ × ℚ × String × Bool),
        (runObserve resetState inputs).recent_hits.length
          = min (inputs.countP (fun i => i.2.2.2)) accuracy_window_size)
    ∧ (∀ (s : ScoreState) (v1 v2 : ℚ) (d : String) (b : Bool),
        s.recent_hits.length ≤ accuracy_window_size →
        (observe s v1 v2 d b).recent_hits.length ≤ accuracy_window_size)
    ∧ (∀ (s : ScoreState) (v1 v2 : ℚ) (d : String),
        s.recent_hits.length = accuracy_window_size →
        (observe s v1 v2 d true).recent_hits
          = s.recent_hits.drop 1 ++ [if combined_vol v1 v2 > thresholdOf d then 1 else 0]) := by
  refine ⟨fun inputs => ?_, fun s v1 v2 d b hs => ?_, fun s v1 v2 d hs => ?_⟩
  · have := runObserve_recent_length inputs resetState (by simp [resetState, accuracy_window_size])
    simpa [resetState] using this
  · rw [observe_recent_length s v1 v2 d b hs]
    cases b <;> simp <;> omega
  · simp only [observe, if_true]
    have hlong : (s.recent_hits ++ [if combined_vol v1 v2 > thresholdOf d then 1 else 0]).length
        > accuracy_window_size := by
      simp [hs]
    rw [if_pos hlong, List.drop_append_of_le_length (by simp [hs, accuracy_window_size])]

/-- C3 witness: the window bound and the FIFO eviction instantiated at concrete
states, discharging the hypotheses. -/
theorem recent_hits_window_witness :
    ((resetState.recent_hits.length ≤ accuracy_window_size)
      ∧ (observe resetState 2 0 "Fácil" true).recent_hits.length ≤ accuracy_window_size)
    ∧ (((⟨43, 0, List.replicate 43 0⟩ : ScoreState).recent_hits.length = accuracy_window_size)
      ∧ (observe ⟨43, 0, List.replicate 43 0⟩ 2 0 "Fácil" true).recent_hits
          = (List.replicate 43 (0 : ℕ)).drop 1
              ++ [if combined_vol 2 0 > thresholdOf "Fácil" then 1 else 0]) :=
  ⟨⟨by simp [resetState, accuracy_window_size],
    recent_hits_window.2.1 resetState 2 0 "Fácil" true (by simp [resetState, accuracy_window_size])⟩,
   ⟨by simp [accuracy_window_size],
    recent_hits_window.2.2 ⟨43, 0, List.replicate 43 0⟩ 2 0 "Fácil" (by simp [accuracy_window_size])⟩⟩

/-- C4 (amended): the word-level JSON parse converts every line and word time from
seconds to milliseconds by multiplying by 1000, and the section 8 example yields one
line with start 1000 ms, end 2000 ms and one word with start 1000 ms, end 1500 ms;
however a line whose end field is missing makes the whole JSON parse fail with a
caught KeyError, yielding an empty timeline — the start*1000 + 5000 fallback is not
applied at parse time and the remaining lines are lost. -/
theorem parse_json_times_ms :
    parse_lrc (.jsonFile (.ok ⟨some [⟨some 1, some 2, [⟨some 1, some 1.5, some "hi"⟩]⟩]⟩))
        = .ok [⟨1000, some 2000, [⟨1000, 1500, some "hi"⟩], none⟩]
    ∧ parse_lrc (.jsonFile (.ok ⟨some [⟨some 1, none, []⟩, ⟨some 3, some 4, []⟩]⟩)) = .ok []
    ∧ (∀ (jl : JLine) (pl : PLine), parseJsonLine jl = .ok pl →
        ∃ a e, jl.start = some a ∧ jl.end_ = some e
          ∧ pl.time = a * 1000 ∧ pl.end_time = some (e * 1000))
    ∧ (∀ (jw : JWord) (pw : PWord), parseJsonWord jw = .ok pw →
        ∃ a e, jw.start = some a ∧ jw.end_ = some e
          ∧ pw.start_ms = a * 1000 ∧ pw.end_ms = e * 1000) := by
  refine ⟨?_, ?_, fun jl pl hok => ?_, fun jw pw hok => ?_⟩
  · norm_num [parse_lrc, parseJsonLine, parseJsonWord, getKey, List.mapM, List.mapM.loop,
      bind, Except.bind, pure, Except.pure]
  · norm_num [parse_lrc, parseJsonLine, parseJsonWord, getKey, List.mapM, List.mapM.loop,
      bind, Except.bind, pure, Except.pure]
  · rcases hs : jl.start with _ | a
    · simp [parseJsonLine, getKey, hs, bind, Except.bind] at hok
    rcases he : jl.end_ with _ | e
    · simp [parseJsonLine, getKey, hs, he, bind, Except.bind] at hok
    rcases hw : List.mapM.loop parseJsonWord jl.words [] with err | ws
    · simp [parseJsonLine, getKey, hs, he, List.mapM, hw, bind, Except.bind] at hok
    · simp only [parseJsonLine, getKey, hs, he, List.mapM, hw, bind, Except.bind, pure,
        Except.pure, Except.ok.injEq] at hok
      subst hok
      exact ⟨a, e, rfl, rfl, rfl, rfl⟩
  · rcases hs : jw.start with _ | a
    · simp [parseJsonWord, getKey, hs, bind, Except.bind] at hok
    rcases he : jw.end_ with _ | e
    · simp [parseJsonWord, getKey, hs, he, bind, Except.bind] at hok
    · simp only [parseJsonWord, getKey, hs, he, bind, Except.bind, pure, Except.pure,
        Except.ok.injEq] at hok
      subst hok
      exact ⟨a, e, rfl, rfl, rfl, rfl⟩

/-- C4 witness: the millisecond-conversion characterization instantiated at the
section 8 example line and word, discharging the hypotheses. -/
theorem parse_json_times_ms_witness :
    (parseJsonLine ⟨some 1, some 2, []⟩ = .ok ⟨1000, some 2000, [], none⟩
      ∧ ∃ a e, (⟨some 1, some 2, []⟩ : JLine).start = some a
          ∧ (⟨some 1, some 2, []⟩ : JLine).end_ = some e
          ∧ (⟨1000, some 2000, [], none⟩ : PLine).time = a * 1000
          ∧ (⟨1000, some 2000, [], none⟩ : PLine).end_time = some (e * 1000))
    ∧ (parseJsonWord ⟨some 1, some (3/2), some "hi"⟩ = .ok ⟨1000, 1500, some "hi"⟩
      ∧ ∃ a e, (⟨some 1, some (3/2), some "hi"⟩ : JWord).start = some a
          ∧ (⟨some 1, some (3/2), some "hi"⟩ : JWord).end_ = some e
          ∧ (⟨1000, 1500, some "hi"⟩ : PWord).start_ms = a * 1000
          ∧ (⟨1000, 1500, some "hi"⟩ : PWord).end_ms = e * 1000) := by
  have h1 : parseJsonLine ⟨some 1, some 2, []⟩ = .ok ⟨1000, some 2000, [], none⟩ := by
    norm_num [parseJsonLine, getKey, List.mapM, List.mapM.loop, bind, Except.bind, pure,
      Except.pure]
  have h2 : parseJsonWord ⟨some 1, some (3/2), some "hi"⟩ = .ok ⟨1000, 1500, some "hi"⟩ := by
    norm_num [parseJsonWord, getKey, bind, Except.bind, pure, Except.pure]
  exact ⟨⟨h1, parse_json_times_ms.2.2.1 _ _ h1⟩, ⟨h2, parse_json_times_ms.2.2.2 _ _ h2⟩⟩

/-- C4 (counterexample): parsing two JSON lines where the first lacks its end field
yields the empty timeline, not the claimed two lines with the 6000 ms fallback. -/
theorem parse_missing_end_cex :
    parse_lrc (.jsonFile (.ok ⟨some [⟨some 1, none, []⟩, ⟨some 3, some 4, []⟩]⟩)) = .ok []
    ∧ (Except.ok ([] : List PLine) : Except Unit (List PLine))
        ≠ .ok [⟨1000, some 6000, [], none⟩, ⟨3000, some 4000, [], none⟩] := by
  constructor
  · norm_num [parse_lrc, parseJsonLine, parseJsonWord, getKey, List.mapM, List.mapM.loop,
      bind, Except.bind, pure, Except.pure]
  · simp

/-- C5: the claim that the lyric parse never raises fails on the LRC branch.
The missing-file check and the JSON try/except do return an empty timeline on
failure, and decodable LRC text with no matching lines also yields an empty
timeline, but the LRC file read itself has no try/except: an existing LRC file
whose read or UTF-8 decoding raises propagates that exception out of parse_lrc
instead of yielding an empty timeline. -/
theorem parse_lrc_decode_error_raises :
    parse_lrc (.lrcFile true (.error ())) = .error ()
    ∧ parse_lrc (.jsonFile (.error ())) = .ok []
    ∧ (∀ d, parse_lrc (.lrcFile false d) = .ok [])
    ∧ parse_lrc (.lrcFile true (.ok [none, none])) = .ok [] :=
  ⟨rfl, rfl, fun _ => rfl, rfl⟩

/-- Case analysis of the seek scan loop: it either stays at the start index or
advances past a line whose effective end is before the target. -/
lemma seekScan_cases_aux :
    ∀ (n : ℕ) (l : List PLine), l.length ≤ n → ∀ (t : ℚ) (p : ℕ),
      seekScan l t p = p
      ∨ (p + 2 ≤ seekScan l t p ∧ seekScan l t p - p - 1 < l.length
          ∧ line_end_time (l.getD (seekScan l t p - p - 1) default) < t) := by
  intro n
  induction n with
  | zero =>
    intro l hl t p
    rw [List.length_eq_zero.mp (Nat.le_zero.mp hl)]
    left
    rfl
  | succ n ih =>
    intro l hl t p
    match l with
    | [] => left; rfl
    | [a] => left; rfl
    | a :: b :: rest =>
      simp only [seekScan]
      by_cases hb : t > line_end_time b
      · rw [if_pos hb]
        have hrest : rest.length ≤ n := by
          simp only [List.length_cons] at hl
          omega
        rcases ih rest hrest t (p + 2) with h1 | ⟨h2, h3, h4⟩
        · right
          rw [h1]
          refine ⟨by omega, by simp, ?_⟩
          have : p + 2 - p - 1 = 1 := by omega
          rw [this]
          simpa using hb
        · right
          refine ⟨by omega, ?_, ?_⟩
          · simp only [List.length_cons]
            omega
          · have hidx : seekScan rest t (p + 2) - p - 1 = (seekScan rest t (p + 2) - (p + 2) - 1) + 2 := by
              omega
            rw [hidx]
            simpa using h4
      · rw [if_neg hb]
        left
        rfl

/-- C6 (amended): the seek recomputation of page_index either returns 0 or lands
just after a line whose effective end is before the target (the landed line itself
may start after the target when the target falls in a gap); in particular a seek to
4500 ms against the 3-line timeline with ends 1000, 3000, 6000 yields page_index 2. -/
theorem seek_page_conservative :
    (∀ (lyrics : List PLine) (target_ms : ℚ),
        seek_page_index lyrics target_ms = 0
        ∨ (seek_page_index lyrics target_ms - 1 < lyrics.length
            ∧ line_end_time (lyrics.getD (seek_page_index lyrics target_ms - 1) default)
                < target_ms))
    ∧ seek_page_index
        [⟨0, some 1000, [], none⟩, ⟨1000, some 3000, [], none⟩, ⟨3000, some 6000, [], none⟩]
        4500 = 2 := by
  constructor
  · intro lyrics target_ms
    rcases seekScan_cases_aux lyrics.length lyrics le_rfl target_ms 0 with h1 | ⟨h2, h3, h4⟩
    · left; exact h1
    · right
      constructor
      · simpa using h3
      · simpa using h4
  · norm_num [seek_page_index, seekScan, line_end_time]

/-- C6 (counterexample): seeking to 4500 ms in a timeline whose third line runs
from 10000 to 12000 ms lands on page_index 2, a line that starts after the target,
refuting the claim that the landed line starts no later than the target. -/
theorem seek_lands_after_target_cex :
    seek_page_index
        [⟨0, some 1000, [], none⟩, ⟨1000, some 3000, [], none⟩, ⟨10000, some 12000, [], none⟩]
        4500 = 2
    ∧ (([⟨0, some 1000, [], none⟩, ⟨1000, some 3000, [], none⟩,
          ⟨10000, some 12000, [], none⟩] : List PLine).getD 2 default).time = 10000
    ∧ ¬ ((([⟨0, some 1000, [], none⟩, ⟨1000, some 3000, [], none⟩,
          ⟨10000, some 12000, [], none⟩] : List PLine).getD 2 default).time ≤ 4500) := by
  refine ⟨?_, ?_, ?_⟩
  · norm_num [seek_page_index, seekScan, line_end_time]
  · norm_num
  · norm_num

/-- C7: with paused true, a cycle on a state whose only open stream is mic2 leaves
mic2 open — the guard checks only stream_mic1 and stream_output, so the claim that
all open streams are closed on a paused cycle fails for a mic2-only configuration. -/
theorem paused_cycle_keeps_mic2_open :
    pausedCycleStreams ⟨none, some ⟨none, false⟩, none⟩
        = .ok ⟨none, some ⟨none, false⟩, none⟩
    ∧ (⟨none, some ⟨none, false⟩, none⟩ : StreamSet).stream_mic2 ≠ none := by
  exact ⟨rfl, by simp⟩

/-- C8 (amended): the elapsed-time query returns media_reported_ms plus
manual_offset_ms whenever the reported position is not -1; when the player reports
-1 it returns 0, ignoring the offset. -/
theorem get_current_time_offset :
    (∀ pos current_offset_ms : ℤ, pos ≠ -1 →
        get_current_time pos current_offset_ms = pos + current_offset_ms)
    ∧ (∀ current_offset_ms : ℤ, get_current_time (-1) current_offset_ms = 0) := by
  constructor
  · intro pos off h
    rw [get_current_time, if_neg h]
  · intro off
    rw [get_current_time, if_pos rfl]

/-- C8 witness: the offset formula instantiated at position 1000 and offset 500. -/
theorem get_current_time_offset_witness :
    ((1000 : ℤ) ≠ -1) ∧ get_current_time 1000 500 = 1000 + 500 :=
  ⟨by norm_num, get_current_time_offset.1 1000 500 (by norm_num)⟩

/-- C8 (counterexample): at reported position -1 with offset 500 the query returns
0, not the claimed sum of media position and offset. -/
theorem get_current_time_unknown_cex :
    get_current_time (-1) 500 = 0
    ∧ get_current_time (-1) 500 ≠ (-1) + 500 := by
  refine ⟨rfl, ?_⟩
  rw [get_current_time, if_pos rfl]
  norm_num

/-- C9: stop_streams leaves all three stream handles empty on every call — a
failure to close one stream (modelled by failsOnClose) never prevents closing the
others or escapes — and calling it on an already-closed set is safe and changes
nothing. -/
theorem stop_streams_clears_all :
    (∀ s : StreamSet, stop_streams s = .ok ⟨none, none, none⟩)
    ∧ stop_streams ⟨none, none, none⟩ = .ok ⟨none, none, none⟩ := by
  constructor
  · intro s
    simp [stop_streams, tryCloseHandle_ok]
  · rfl

/-- C10: when mic2 is configured to the same device index as mic1 (and not None),
start_streams never opens a mic2 stream, the mic2 read of a cycle stays the
zero-filled buffer, and current_volume_mic2 reads 0. -/
theorem same_device_mic2_silent :
    ∀ (i : ℕ) (mon : Bool) (oc : OpenOutcomes) (s : StreamSet) (chunk : ℕ) (vol2 : ℚ),
      s.stream_mic2 = none →
      (start_streams (some i) (some i) mon oc s).1.stream_mic2 = none
      ∧ readMic2 (start_streams (some i) (some i) mon oc s).1 chunk = np_zeros chunk
      ∧ current_volume (np_zeros chunk) vol2 chunk = 0 := by
  intro i mon oc s chunk vol2 hs
  have hnorm : np_linalg_norm (List.replicate chunk (0 : ℚ)) = 0 := by
    unfold np_linalg_norm
    rw [List.map_replicate]
    norm_num [List.sum_replicate]
  have hvol : current_volume (np_zeros chunk) vol2 chunk = 0 := by
    unfold current_volume
    simp only [np_zeros, List.map_replicate, zero_mul]
    rw [hnorm]
    simp
  have hmic2 : (start_streams (some i) (some i) mon oc s).1.stream_mic2 = none := by
    cases hok : oc.mic1_ok <;> cases mon <;> cases hatt : oc.monitor_attempts.any id <;>
      simp [start_streams, open_input, Functor.map, Except.map, hok, hatt, hs]
  refine ⟨hmic2, ?_, hvol⟩
  rw [readMic2, hmic2]

/-- C10 witness: the same-device configuration instantiated at device index 3 on
the initial all-closed stream set. -/
theorem same_device_mic2_silent_witness :
    ((⟨none, none, none⟩ : StreamSet).stream_mic2 = none)
    ∧ ((start_streams (some 3) (some 3) false ⟨true, true, []⟩ ⟨none, none, none⟩).1.stream_mic2
          = none
        ∧ readMic2 (start_streams (some 3) (some 3) false ⟨true, true, []⟩
            ⟨none, none, none⟩).1 2 = np_zeros 2
        ∧ current_volume (np_zeros 2) 1 2 = 0) :=
  ⟨rfl, same_device_mic2_silent 3 false ⟨true, true, []⟩ ⟨none, none, none⟩ 2 1 rfl⟩

end Karaoke
